import Mathlib

/-!
Verification development for the product-list-with-cart controller
(`src/index.ts`).  The controller keeps an in-memory list of cart entries
and reacts to click events on the product grid, the cart panel and the
start-new-order button.  We embed the cart state machine shallowly:

* `CartItem` mirrors the `CartItem` type of the source.
* `ProductCard` captures what the controller reads from a product card in
  the page markup: the text content of its `.cart-name` element, the text
  content of its `.card-price` element, and the `src` of its `<img>`
  (each `Option` because the element may be missing; an empty string
  models an empty text/URL, which JavaScript treats as falsy).
* `ButtonState` is the visual mode of a card's control region: the plain
  add button, or the quantity selector showing a number.
* `step` executes one click event exactly as the three event listeners do.

JavaScript numbers are modelled as exact rationals (`ℚ`): the prices in
play are short decimal literals and the claims concern the arithmetic
structure of the totals, not binary floating-point rounding.  Quantities
are `Int`, as in JavaScript `quantity--` on 0 yields -1 (not removal).
`parseFloat` is modelled on finite decimal literals (optional whitespace,
sign, digits, fraction, exponent); the `Infinity` literal has no rational
value and is outside the model.  `String.prototype.replace` with a string
pattern replaces only the first occurrence; `replaceFirst` models this for
an empty replacement, which is the only replacement the source uses.
-/

structure CartItem where
  id : String
  name : String
  price : ℚ
  quantity : Int
  image : Option String
deriving DecidableEq

structure ProductCard where
  cartNameText : Option String
  cardPriceText : Option String
  imgSrc : Option String
deriving DecidableEq

inductive ButtonState where
  | addButton : ButtonState
  | quantitySelector : Int → ButtonState
deriving DecidableEq

/-- `startsList pat l` holds when `pat` is an initial segment of `l`. -/
def startsList : List Char → List Char → Bool
  | [], _ => true
  | _ :: _, [] => false
  | a :: as, b :: bs => a == b && startsList as bs

/-- `hasSub pat l` holds when the (nonempty) pattern `pat` occurs as a
contiguous run somewhere in `l`. -/
def hasSub (pat : List Char) : List Char → Bool
  | [] => false
  | c :: cs => startsList pat (c :: cs) || hasSub pat cs

/-- `endsList pat l` holds when `pat` is a final segment of `l`. -/
def endsList (pat l : List Char) : Bool :=
  startsList pat.reverse l.reverse

/-- Models JavaScript `s.trim()`: whitespace is removed from both ends. -/
def jsTrim (s : String) : String :=
  ⟨((s.data.dropWhile Char.isWhitespace).reverse.dropWhile Char.isWhitespace).reverse⟩

/-- Split `l` at the first occurrence of `pat`: `some (u, v)` with
`l = u ++ pat ++ v` and no earlier occurrence, `none` when `pat` does not
occur. -/
def splitFirst (pat : List Char) : List Char → Option (List Char × List Char)
  | [] => none
  | c :: cs =>
    if startsList pat (c :: cs) then some ([], (c :: cs).drop pat.length)
    else
      match splitFirst pat cs with
      | some (pre, post) => some (c :: pre, post)
      | none => none

/-- Models JavaScript `s.replace(pat, '')` with a string pattern: only the
first occurrence of `pat` is removed. -/
def replaceFirst (s : String) (pat : String) : String :=
  match splitFirst pat.data s.data with
  | some (pre, post) => ⟨pre ++ post⟩
  | none => s

def digitsToNat (ds : List Char) : Nat :=
  ds.foldl (fun n c => n * 10 + (c.toNat - 48)) 0

/-- Exponent digits of a JavaScript float literal after the `e`/`E`:
optional sign then digits; an ill-formed exponent part is not part of the
longest valid prefix, so it contributes the factor 1 (exponent 0). -/
def jsExpoAux (cs : List Char) : Int :=
  match cs with
  | '+' :: r =>
    let p := r.span Char.isDigit
    if p.1.isEmpty then 0 else (digitsToNat p.1 : Int)
  | '-' :: r =>
    let p := r.span Char.isDigit
    if p.1.isEmpty then 0 else -(digitsToNat p.1 : Int)
  | _ =>
    let p := cs.span Char.isDigit
    if p.1.isEmpty then 0 else (digitsToNat p.1 : Int)

def jsExpoFactor (cs : List Char) : ℚ :=
  match cs with
  | 'e' :: r => (10 : ℚ) ^ (jsExpoAux r)
  | 'E' :: r => (10 : ℚ) ^ (jsExpoAux r)
  | _ => 1

/-- Models JavaScript `parseFloat` on finite decimal literals: skip
leading whitespace, optional sign, then the longest prefix of the form
`digits [. digits] [e sign digits]` (also `.digits`); `none` models `NaN`
(no numeric prefix at all).  The `Infinity` literal is outside the model
(it has no rational value). -/
def jsParseFloat (s : String) : Option ℚ :=
  let cs := s.data.dropWhile Char.isWhitespace
  let sgn : ℚ := match cs with | '-' :: _ => -1 | _ => 1
  let cs1 : List Char := match cs with | '-' :: r => r | '+' :: r => r | _ => cs
  let p := cs1.span Char.isDigit
  match p.2 with
  | '.' :: r2 =>
    let pf := r2.span Char.isDigit
    if p.1.isEmpty && pf.1.isEmpty then none
    else
      some (sgn * ((digitsToNat p.1 : ℚ) + (digitsToNat pf.1 : ℚ) / ((10 : ℚ) ^ pf.1.length))
        * jsExpoFactor pf.2)
  | _ =>
    if p.1.isEmpty then none
    else some (sgn * (digitsToNat p.1 : ℚ) * jsExpoFactor p.2)

/-- Models `parseFloat(priceText.replace('$', '')) || 0` from `addToCart`:
the first `'$'` is removed, the rest is parsed, and a `NaN` result (as
well as `±0`, which `|| 0` also maps to `0`, the same rational) falls back
to `0`. -/
def parsePrice (s : String) : ℚ :=
  match jsParseFloat (replaceFirst s "$") with
  | some v => v
  | none => 0

/-- The card id, as both the grid handler and `addToCart` compute it:
`card.querySelector('.cart-name')?.textContent?.trim()`, with the falsy
guard (`none` for a missing element and for an id that trims to `""`). -/
def idOf (card : ProductCard) : Option String :=
  match card.cartNameText with
  | some t => if jsTrim t = "" then none else some (jsTrim t)
  | none => none

/-- The image stored by `addToCart`:
`imgEl?.src ? imgEl.src.replace('-desktop', '') : undefined`. -/
def imageOf (card : ProductCard) : Option String :=
  match card.imgSrc with
  | some src => if src = "" then none else some (replaceFirst src "-desktop")
  | none => none

/-- Modelled from the spec's words for claim C7 ("price text with a
leading currency symbol is stripped and parsed as a floating-point
number; unparseable price defaults to 0"), to be compared with
`parsePrice`, which is translated from the source. -/
def specParsePrice (s : String) : ℚ :=
  match jsParseFloat (match s.data with | '$' :: r => ⟨r⟩ | _ => s) with
  | some v => v
  | none => 0

/-- Modelled from the spec's words for claim C9 ("image URL derived from
the card's image element by removing a `-desktop` suffix if present"), to
be compared with `imageOf`, which is translated from the source. -/
def specImageOf (card : ProductCard) : Option String :=
  match card.imgSrc with
  | some src =>
    if src = "" then none
    else some (if endsList "-desktop".data src.data
               then ⟨src.data.take (src.data.length - 8)⟩ else src)
  | none => none

/-- `addToCart(productCard)` from the source: re-derive the id (with the
same falsy guard), parse the price, derive the image, and push a new
entry with quantity 1.  The boolean records whether the push (and the
`updateCart()` call) happened. -/
def addToCart (card : ProductCard) (cart : List CartItem) : List CartItem × Bool :=
  match idOf card with
  | none => (cart, false)
  | some id =>
    (cart ++ [{ id := id, name := id, price := parsePrice (card.cardPriceText.getD ""),
                quantity := 1, image := imageOf card }], true)

/-- In-place mutation of the object returned by `cart.find(...)`: only the
first entry satisfying `p` is replaced by its image under `f`. -/
def bumpFirst (f : CartItem → CartItem) (p : CartItem → Bool) : List CartItem → List CartItem
  | [] => []
  | x :: xs => if p x then f x :: xs else x :: bumpFirst f p xs

inductive GridControl where
  | increment : GridControl
  | decrement : GridControl
  | add : GridControl
deriving DecidableEq

/-- The product-grid click listener, given the resolved card, the
dispatching control class, the cart and the clicked card's button state.
Returns the new cart, the card's new button state, and whether
`updateCart()` ran.  `GridControl.add` is any button carrying neither
`increment-btn` nor `decrement-btn` (the `else` branch of the source). -/
def productGridClick (card : ProductCard) (control : GridControl)
    (cart : List CartItem) (bs : ButtonState) : List CartItem × ButtonState × Bool :=
  match idOf card with
  | none => (cart, bs, false)
  | some cardId =>
    match control with
    | GridControl.increment =>
      match cart.find? (fun item => item.id == cardId) with
      | some item =>
        (bumpFirst (fun it => { it with quantity := it.quantity + 1 })
            (fun it => it.id == cardId) cart,
         ButtonState.quantitySelector (item.quantity + 1), true)
      | none => (cart, bs, false)
    | GridControl.decrement =>
      match cart.find? (fun item => item.id == cardId) with
      | some item =>
        let cart1 := bumpFirst (fun it => { it with quantity := it.quantity - 1 })
            (fun it => it.id == cardId) cart
        if item.quantity - 1 = 0 then
          (cart1.filter (fun it => !(it.id == cardId)), ButtonState.addButton, true)
        else
          (cart1, ButtonState.quantitySelector (item.quantity - 1), true)
      | none => (cart, bs, false)
    | GridControl.add =>
      match cart.find? (fun item => item.id == cardId) with
      | some _ => (cart, bs, false)
      | none =>
        let r := addToCart card cart
        (r.1, ButtonState.quantitySelector 1, r.2)

/-- The remove branch of the cart-panel click listener, restricted to its
effect on the cart: `removeBtn.dataset.id` (`none` for a missing
attribute), the falsy guard, then `cart.filter(item => item.id !==
productId)`.  The boolean records whether `updateCart()` ran. -/
def cartRemoveClick (pid : Option String) (cart : List CartItem) : List CartItem × Bool :=
  match pid with
  | none => (cart, false)
  | some p => if p = "" then (cart, false) else (cart.filter (fun it => !(it.id == p)), true)

/-- JavaScript `x.toFixed(2)` idealised on ℚ: sign split, then the integer
`n` with `n / 100` closest to `|x|`, ties to the larger `n`, printed with
two fractional digits.  (Real `toFixed` operates on the exact binary
double; prices here are modelled as exact rationals.) -/
def pad2 (n : Nat) : String :=
  if n < 10 then "0" ++ toString n else toString n

def toFixed2 (x : ℚ) : String :=
  let sgn := if x < 0 then "-" else ""
  let y := if x < 0 then -x else x
  let n := (Int.floor (y * 100 + 1 / 2)).toNat
  sgn ++ toString (n / 100) ++ "." ++ pad2 (n % 100)

/-- One row of the cart panel, as `updateCart` renders it. -/
structure CartRow where
  name : String
  quantity : Int
  pricePerText : String
  lineTotalText : String
  removeId : String
deriving DecidableEq

def cartRowOf (item : CartItem) : CartRow :=
  { name := item.name, quantity := item.quantity,
    pricePerText := "@ $" ++ toFixed2 item.price,
    lineTotalText := "$" ++ toFixed2 (item.price * (item.quantity : ℚ)),
    removeId := item.id }

/-- The accumulation inside `updateCart`'s `cart.map(...)` loop:
`totalItems += item.quantity; totalPrice += item.price * item.quantity`
while the row markup is collected in order. -/
def updateCartFold (cart : List CartItem) : Int × ℚ × List CartRow :=
  cart.foldl (fun acc item =>
      (acc.1 + item.quantity, acc.2.1 + item.price * (item.quantity : ℚ),
       acc.2.2 ++ [cartRowOf item]))
    (0, 0, [])

/-- The cart panel markup produced by `updateCart`: the empty-state
fragment (whose heading is `Your Cart (0)` and which has no total
element), or the item list with the heading count, the rows, and the
`total-price` span. -/
inductive CartView where
  | emptyState : CartView
  | items : Int → List CartRow → ℚ → String → CartView
deriving DecidableEq

def CartView.count : CartView → Int
  | CartView.emptyState => 0
  | CartView.items t _ _ _ => t

def CartView.rowsOf : CartView → List CartRow
  | CartView.emptyState => []
  | CartView.items _ r _ _ => r

def CartView.totalOf : CartView → Option ℚ
  | CartView.emptyState => none
  | CartView.items _ _ p _ => some p

def CartView.totalTextOf : CartView → Option String
  | CartView.emptyState => none
  | CartView.items _ _ _ t => some t

/-- `updateCart()` as a pure rendering of the cart. -/
def renderCartView (cart : List CartItem) : CartView :=
  if cart.isEmpty then CartView.emptyState
  else
    let acc := updateCartFold cart
    CartView.items acc.1 acc.2.2 acc.2.1 ("$" ++ toFixed2 acc.2.1)

/-- One row of the confirmation modal, as `showConfirmationModal` renders
it (`item.image ?? ''` for the `img` source). -/
structure ModalRow where
  image : String
  name : String
  quantity : Int
  pricePerText : String
  lineTotalText : String
deriving DecidableEq

def modalRowOf (item : CartItem) : ModalRow :=
  { image := item.image.getD "", name := item.name, quantity := item.quantity,
    pricePerText := "@ $" ++ toFixed2 item.price,
    lineTotalText := "$" ++ toFixed2 (item.price * (item.quantity : ℚ)) }

/-- The accumulation inside `showConfirmationModal`'s `cart.map(...)`
loop. -/
def showModalFold (cart : List CartItem) : ℚ × List ModalRow :=
  cart.foldl (fun acc item =>
      (acc.1 + item.price * (item.quantity : ℚ), acc.2 ++ [modalRowOf item]))
    (0, [])

structure ModalView where
  rows : List ModalRow
  totalPrice : ℚ
  totalText : String
deriving DecidableEq

/-- The modal summary and total that `showConfirmationModal` writes. -/
def renderModalView (cart : List CartItem) : ModalView :=
  let acc := showModalFold cart
  { rows := acc.2, totalPrice := acc.1, totalText := "$" ++ toFixed2 acc.1 }

/-- The static page environment: the product cards in document order and
whether the modal overlay has its summary and total elements. -/
structure PageEnv where
  cards : List ProductCard
  modalHasSummary : Bool
  modalHasTotal : Bool

/-- The mutable page state owned by the controller: the cart, each
product card's button mode, the modal visibility and rendered content,
and the cart panel's rendered content. -/
structure PageState where
  cart : List CartItem
  buttons : List ButtonState
  modalVisible : Bool
  modal : Option ModalView
  panel : CartView

/-- `findProductCardById(productId)`: the first card whose `.cart-name`
text trims to the given id (a card with no name element never matches). -/
def findCardIdx (cards : List ProductCard) (pid : String) : Option Nat :=
  cards.findIdx? (fun c =>
    match c.cartNameText with
    | some t => jsTrim t == pid
    | none => false)

/-- `showConfirmationModal()`: abort when the summary or total element is
missing, otherwise render the modal from the cart and make the overlay
visible.  The cart is not touched. -/
def showConfirmationModal (env : PageEnv) (s : PageState) : PageState :=
  if env.modalHasSummary && env.modalHasTotal then
    { s with modal := some (renderModalView s.cart), modalVisible := true }
  else s

/-- `resetOrder()`: hide the modal, empty the cart, reset every product
card's button to the initial add state, re-render the cart panel (the
modal's previously rendered content is left in place, merely hidden). -/
def resetOrder (s : PageState) : PageState :=
  { s with modalVisible := false, cart := [],
           buttons := s.buttons.map (fun _ => ButtonState.addButton),
           panel := renderCartView [] }

/-- A click event, after the DOM has resolved its target: a grid click
names the clicked card (by index) and the dispatching control class; a
cart-panel click is either a remove click carrying the control's
`data-id`, or a click on the confirm-order button; the start-new-order
button fires `startNewOrder`.  Clicks whose target resolution fails
(`closest` returning null) do not reach the dispatching code and are not
events. -/
inductive PageEvent where
  | gridClick : Nat → GridControl → PageEvent
  | removeClick : Option String → PageEvent
  | confirmClick : PageEvent
  | startNewOrder : PageEvent

/-- One click event, exactly as the three listeners process it. -/
def step (env : PageEnv) (ev : PageEvent) (s : PageState) : PageState :=
  match ev with
  | PageEvent.gridClick i control =>
    match env.cards[i]? with
    | none => s
    | some card =>
      let r := productGridClick card control s.cart (s.buttons.getD i ButtonState.addButton)
      { s with cart := r.1, buttons := s.buttons.set i r.2.1,
               panel := if r.2.2 then renderCartView r.1 else s.panel }
  | PageEvent.removeClick pid =>
    let r := cartRemoveClick pid s.cart
    if r.2 then
      { s with cart := r.1,
               buttons :=
                 match pid.bind (findCardIdx env.cards) with
                 | some j => s.buttons.set j ButtonState.addButton
                 | none => s.buttons,
               panel := renderCartView r.1 }
    else s
  | PageEvent.confirmClick => showConfirmationModal env s
  | PageEvent.startNewOrder => resetOrder s

/-- The page state right after `DOMContentLoaded`: empty cart, every card
in add mode, modal hidden and not yet rendered, and the static markup's
empty cart panel. -/
def initState (env : PageEnv) : PageState :=
  { cart := [], buttons := env.cards.map (fun _ => ButtonState.addButton),
    modalVisible := false, modal := none, panel := renderCartView [] }

/-- The state reached by a sequence of click events from the initial
state. -/
def run (env : PageEnv) (evs : List PageEvent) : PageState :=
  evs.foldl (fun s e => step env e s) (initState env)

/-- The cart invariant of the spec's data model: every entry has quantity
at least 1 and ids are pairwise distinct. -/
def CartInv (cart : List CartItem) : Prop :=
  (∀ e ∈ cart, 1 ≤ e.quantity) ∧ (cart.map (fun e => e.id)).Nodup

/-!  Rat's arithmetic operations are `@[irreducible]` in the library;
restore semireducibility locally so that concrete cart states evaluate
(for the closed instance theorems below). -/

attribute [local semireducible] Rat.mul Rat.inv Rat.add Rat.sub Rat.ofScientific

theorem startsList_length_le : ∀ (pat l : List Char), startsList pat l = true → pat.length ≤ l.length := by
  intro pat
  induction pat with
  | nil => intro l _; simp
  | cons a as ih =>
    intro l h
    cases l with
    | nil => simp [startsList] at h
    | cons b bs =>
      simp [startsList] at h
      simpa using ih bs h.2

theorem startsList_eq_append : ∀ (pat l : List Char), startsList pat l = true → l = pat ++ l.drop pat.length := by
  intro pat
  induction pat with
  | nil => intro l _; simp
  | cons a as ih =>
    intro l h
    cases l with
    | nil => simp [startsList] at h
    | cons b bs =>
      simp [startsList] at h
      obtain ⟨rfl, h2⟩ := h
      simpa using ih bs h2

theorem startsList_append_left : ∀ (pat P w : List Char), pat.length ≤ P.length →
    startsList pat (P ++ w) = startsList pat P := by
  intro pat
  induction pat with
  | nil => intro P w _; simp [startsList]
  | cons a as ih =>
    intro P w h
    cases P with
    | nil => simp at h
    | cons b bs =>
      have := ih bs w (Nat.le_of_succ_le_succ (by simpa using h))
      simp [startsList, this]

theorem hasSub_short : ∀ (pat l : List Char), l.length < pat.length → hasSub pat l = false := by
  intro pat l
  induction l with
  | nil => intro _; rfl
  | cons c cs ih =>
    intro h
    have h1 : startsList pat (c :: cs) = false := by
      cases hs : startsList pat (c :: cs) with
      | false => rfl
      | true =>
        have := startsList_length_le pat (c :: cs) hs
        omega
    have h2 : hasSub pat cs = false := ih (by simp at h ⊢; omega)
    simp [hasSub, h1, h2]

theorem splitFirst_of_hasSub_false : ∀ (pat l : List Char), hasSub pat l = false →
    splitFirst pat l = none := by
  intro pat l
  induction l with
  | nil => intro _; rfl
  | cons c cs ih =>
    intro h
    rw [hasSub, Bool.or_eq_false_iff] at h
    simp [splitFirst, h.1, ih h.2]

theorem splitFirst_sound : ∀ (pat l : List Char), pat ≠ [] → hasSub pat l = true →
    ∃ u v, splitFirst pat l = some (u, v) ∧ l = u ++ (pat ++ v) ∧
      hasSub pat (u ++ pat.dropLast) = false := by
  intro pat l hne
  induction l with
  | nil => intro h; simp [hasSub] at h
  | cons c cs ih =>
    intro h
    cases hs : startsList pat (c :: cs) with
    | true =>
      refine ⟨[], (c :: cs).drop pat.length, ?_, ?_, ?_⟩
      · simp [splitFirst, hs]
      · simpa using startsList_eq_append pat (c :: cs) hs
      · refine hasSub_short pat pat.dropLast ?_
        have hlen : pat.length ≠ 0 := by simpa using hne
        simp [List.length_dropLast]
        omega
    | false =>
      have h2 : hasSub pat cs = true := by
        rw [hasSub, hs, Bool.false_or] at h
        exact h
      obtain ⟨u, v, hsp, heq, hfirst⟩ := ih h2
      refine ⟨c :: u, v, ?_, ?_, ?_⟩
      · simp [splitFirst, hs, hsp]
      · simp [heq]
      · have hpos : 1 ≤ pat.length := by
          cases pat with
          | nil => exact absurd rfl hne
          | cons p ps => simp
        have hlast := List.dropLast_append_getLast hne
        have hmid : pat.dropLast ++ (pat.getLast hne :: v) = pat ++ v := by
          conv_rhs => rw [← hlast]
          simp
        have hdecomp : ((c :: u) ++ pat.dropLast) ++ (pat.getLast hne :: v) = c :: cs := by
          rw [List.append_assoc, hmid, heq]
          simp
        have hlen : pat.length ≤ ((c :: u) ++ pat.dropLast).length := by
          simp [List.length_dropLast]
          omega
        have hsl : startsList pat ((c :: u) ++ pat.dropLast) = false := by
          rw [← startsList_append_left pat _ (pat.getLast hne :: v) hlen, hdecomp]
          exact hs
        simp only [List.cons_append] at hsl ⊢
        simp [hasSub, hsl, hfirst]

theorem replaceFirst_no_occ (s pat : String) (h : hasSub pat.data s.data = false) :
    replaceFirst s pat = s := by
  simp [replaceFirst, splitFirst_of_hasSub_false _ _ h]

theorem replaceFirst_occ (s pat : String) (hne : pat.data ≠ []) (h : hasSub pat.data s.data = true) :
    ∃ u v, s.data = u ++ (pat.data ++ v) ∧ hasSub pat.data (u ++ pat.data.dropLast) = false ∧
      replaceFirst s pat = ⟨u ++ v⟩ := by
  obtain ⟨u, v, h1, h2, h3⟩ := splitFirst_sound pat.data s.data hne h
  exact ⟨u, v, h2, h3, by simp [replaceFirst, h1]⟩

theorem bumpFirst_map_id (f : CartItem → CartItem) (p : CartItem → Bool)
    (hf : ∀ e, (f e).id = e.id) :
    ∀ l, (bumpFirst f p l).map (fun e => e.id) = l.map (fun e => e.id) := by
  intro l
  induction l with
  | nil => rfl
  | cons x xs ih =>
    cases hx : p x with
    | true => simp [bumpFirst, hx, hf]
    | false => simp [bumpFirst, hx, ih]

theorem mem_bumpFirst_of_find? (f : CartItem → CartItem) (p : CartItem → Bool) :
    ∀ l a e, l.find? p = some a → e ∈ bumpFirst f p l → e ∈ l ∨ e = f a := by
  intro l
  induction l with
  | nil => intro a e h; simp [List.find?] at h
  | cons x xs ih =>
    intro a e hfind hmem
    cases hx : p x with
    | true =>
      rw [List.find?_cons_of_pos _ hx] at hfind
      obtain rfl : x = a := by simpa using hfind
      simp [bumpFirst, hx] at hmem
      rcases hmem with h | h
      · right; exact h
      · left; simp [h]
    | false =>
      rw [List.find?_cons_of_neg _ (by simp [hx])] at hfind
      simp [bumpFirst, hx] at hmem
      rcases hmem with rfl | h
      · left; simp
      · rcases ih a e hfind h with h1 | h1
        · left; simp [h1]
        · right; exact h1

theorem filter_bumpFirst (f : CartItem → CartItem) (p : CartItem → Bool)
    (hf : ∀ e, p (f e) = p e) :
    ∀ l, (bumpFirst f p l).filter (fun e => !(p e)) = l.filter (fun e => !(p e)) := by
  intro l
  induction l with
  | nil => rfl
  | cons x xs ih =>
    cases hx : p x with
    | true => simp [bumpFirst, hx, List.filter_cons, hf]
    | false => simp [bumpFirst, hx, List.filter_cons, ih]

theorem map_noMatch_id (f : CartItem → CartItem) (id : String) :
    ∀ xs : List CartItem, (∀ e ∈ xs, (e.id == id) = false) →
      xs.map (fun e => if e.id == id then f e else e) = xs := by
  intro xs
  induction xs with
  | nil => intro _; rfl
  | cons x xs ih =>
    intro h
    have hx := h x (by simp)
    have hxs := ih (fun e he => h e (by simp [he]))
    rw [List.map_cons, hx, hxs]
    simp

theorem bumpFirst_eq_map (f : CartItem → CartItem) (id : String) :
    ∀ l : List CartItem, (l.map (fun e => e.id)).Nodup →
      bumpFirst f (fun e => e.id == id) l =
        l.map (fun e => if e.id == id then f e else e) := by
  intro l
  induction l with
  | nil => intro _; rfl
  | cons x xs ih =>
    intro hnd
    rw [List.map_cons, List.nodup_cons] at hnd
    cases hx : (x.id == id) with
    | true =>
      have hxid : x.id = id := by simpa using hx
      have hrest : ∀ e ∈ xs, (e.id == id) = false := by
        intro e he
        cases he2 : (e.id == id) with
        | false => rfl
        | true =>
          have : e.id = id := by simpa using he2
          exact absurd (by rw [hxid, ← this]; exact List.mem_map_of_mem _ he) hnd.1
      have hmap := map_noMatch_id f id xs hrest
      simp only [bumpFirst, List.map_cons, hx, hmap]
      simp
    | false =>
      simp only [bumpFirst, List.map_cons, hx, ih hnd.2]
      simp

theorem updateCartFold_run : ∀ (cart : List CartItem) (t : Int) (pr : ℚ) (rows : List CartRow),
    cart.foldl (fun acc item =>
        (acc.1 + item.quantity, acc.2.1 + item.price * (item.quantity : ℚ),
         acc.2.2 ++ [cartRowOf item])) (t, pr, rows)
      = (t + (cart.map (fun e => e.quantity)).sum,
         pr + (cart.map (fun e => e.price * (e.quantity : ℚ))).sum,
         rows ++ cart.map cartRowOf) := by
  intro cart
  induction cart with
  | nil => intro t pr rows; simp
  | cons x xs ih =>
    intro t pr rows
    simp only [List.foldl_cons, List.map_cons, List.sum_cons]
    rw [ih]
    simp [add_assoc]

theorem updateCartFold_spec (cart : List CartItem) :
    updateCartFold cart
      = ((cart.map (fun e => e.quantity)).sum,
         (cart.map (fun e => e.price * (e.quantity : ℚ))).sum,
         cart.map cartRowOf) := by
  simpa [updateCartFold] using updateCartFold_run cart 0 0 []

theorem showModalFold_run : ∀ (cart : List CartItem) (pr : ℚ) (rows : List ModalRow),
    cart.foldl (fun acc item =>
        (acc.1 + item.price * (item.quantity : ℚ), acc.2 ++ [modalRowOf item])) (pr, rows)
      = (pr + (cart.map (fun e => e.price * (e.quantity : ℚ))).sum,
         rows ++ cart.map modalRowOf) := by
  intro cart
  induction cart with
  | nil => intro pr rows; simp
  | cons x xs ih =>
    intro pr rows
    simp only [List.foldl_cons, List.map_cons, List.sum_cons]
    rw [ih]
    simp [add_assoc]

theorem showModalFold_spec (cart : List CartItem) :
    showModalFold cart
      = ((cart.map (fun e => e.price * (e.quantity : ℚ))).sum, cart.map modalRowOf) := by
  simpa [showModalFold] using showModalFold_run cart 0 []

theorem cartInv_filter (p : CartItem → Bool) (cart : List CartItem) (h : CartInv cart) :
    CartInv (cart.filter p) := by
  constructor
  · intro e he
    exact h.1 e (List.mem_of_mem_filter he)
  · exact List.Nodup.sublist (List.Sublist.map _ (List.filter_sublist cart)) h.2

theorem cartInv_productGridClick (card : ProductCard) (control : GridControl)
    (cart : List CartItem) (bs : ButtonState) (h : CartInv cart) :
    CartInv (productGridClick card control cart bs).1 := by
  cases hid : idOf card with
  | none => simpa [productGridClick, hid] using h
  | some cardId =>
    cases control with
    | increment =>
      cases hfind : cart.find? (fun item => item.id == cardId) with
      | none => simpa [productGridClick, hid, hfind] using h
      | some item =>
        have hmem := List.mem_of_find?_eq_some hfind
        have hres : (productGridClick card GridControl.increment cart bs).1
            = bumpFirst (fun it => { it with quantity := it.quantity + 1 })
                (fun it => it.id == cardId) cart := by
          simp [productGridClick, hid, hfind]
        rw [hres]
        constructor
        · intro e he
          rcases mem_bumpFirst_of_find? _ _ cart item e hfind he with h1 | h1
          · exact h.1 e h1
          · have hq := h.1 item hmem
            subst h1
            show (1 : Int) ≤ item.quantity + 1
            omega
        · rw [bumpFirst_map_id (fun it => { it with quantity := it.quantity + 1 })
            (fun it => it.id == cardId) (fun e => rfl)]
          exact h.2
    | decrement =>
      cases hfind : cart.find? (fun item => item.id == cardId) with
      | none => simpa [productGridClick, hid, hfind] using h
      | some item =>
        have hmem := List.mem_of_find?_eq_some hfind
        have hq1 := h.1 item hmem
        by_cases hq : item.quantity - 1 = 0
        · have hres : (productGridClick card GridControl.decrement cart bs).1
              = (bumpFirst (fun it => { it with quantity := it.quantity - 1 })
                  (fun it => it.id == cardId) cart).filter (fun it => !(it.id == cardId)) := by
            simp [productGridClick, hid, hfind, hq]
          rw [hres, filter_bumpFirst (fun it => { it with quantity := it.quantity - 1 })
            (fun it => it.id == cardId) (fun e => rfl)]
          exact cartInv_filter _ _ h
        · have hres : (productGridClick card GridControl.decrement cart bs).1
              = bumpFirst (fun it => { it with quantity := it.quantity - 1 })
                  (fun it => it.id == cardId) cart := by
            simp [productGridClick, hid, hfind, hq]
          rw [hres]
          constructor
          · intro e he
            rcases mem_bumpFirst_of_find? _ _ cart item e hfind he with h1 | h1
            · exact h.1 e h1
            · subst h1
              show (1 : Int) ≤ item.quantity - 1
              omega
          · rw [bumpFirst_map_id (fun it => { it with quantity := it.quantity - 1 })
              (fun it => it.id == cardId) (fun e => rfl)]
            exact h.2
    | add =>
      cases hfind : cart.find? (fun item => item.id == cardId) with
      | some item => simpa [productGridClick, hid, hfind] using h
      | none =>
        have hres : (productGridClick card GridControl.add cart bs).1
            = cart ++ [{ id := cardId, name := cardId,
                         price := parsePrice (card.cardPriceText.getD ""), quantity := 1,
                         image := imageOf card }] := by
          simp [productGridClick, hid, hfind, addToCart]
        rw [hres]
        have hnotin : ∀ e ∈ cart, ¬ (e.id = cardId) := by
          intro e he hc
          have := List.find?_eq_none.mp hfind e he
          simp [hc] at this
        constructor
        · intro e he
          rcases List.mem_append.mp he with h1 | h1
          · exact h.1 e h1
          · simp at h1
            subst h1
            simp
        · rw [List.map_append, List.nodup_append]
          refine ⟨h.2, by simp, ?_⟩
          intro a ha hb
          simp at hb
          subst hb
          rcases List.mem_map.mp ha with ⟨e, he, hei⟩
          exact hnotin e he hei

theorem showConfirmationModal_cart (env : PageEnv) (s : PageState) :
    (showConfirmationModal env s).cart = s.cart := by
  cases hm : (env.modalHasSummary && env.modalHasTotal) <;> simp [showConfirmationModal, hm]

theorem cartInv_step (env : PageEnv) (ev : PageEvent) (s : PageState) (h : CartInv s.cart) :
    CartInv (step env ev s).cart := by
  cases ev with
  | gridClick i control =>
    cases hc : env.cards[i]? with
    | none => simpa [step, hc] using h
    | some card =>
      have := cartInv_productGridClick card control s.cart (s.buttons.getD i ButtonState.addButton) h
      simpa [step, hc] using this
  | removeClick pid =>
    cases pid with
    | none => simpa [step, cartRemoveClick] using h
    | some p =>
      by_cases hp : p = ""
      · simpa [step, cartRemoveClick, hp] using h
      · have := cartInv_filter (fun it => !(it.id == p)) s.cart h
        simpa [step, cartRemoveClick, hp] using this
  | confirmClick =>
    have := showConfirmationModal_cart env s
    constructor
    · intro e he
      rw [show (step env PageEvent.confirmClick s).cart = (showConfirmationModal env s).cart from rfl, this] at he
      exact h.1 e he
    · rw [show (step env PageEvent.confirmClick s).cart = (showConfirmationModal env s).cart from rfl, this]
      exact h.2
  | startNewOrder =>
    constructor
    · intro e he
      simp [step, resetOrder] at he
    · simp [step, resetOrder]

theorem cartInv_foldl (env : PageEnv) : ∀ (evs : List PageEvent) (s : PageState),
    CartInv s.cart → CartInv (evs.foldl (fun s e => step env e s) s).cart := by
  intro evs
  induction evs with
  | nil => intro s h; simpa using h
  | cons e es ih =>
    intro s h
    exact ih _ (cartInv_step env e s h)

theorem cartInv_run (env : PageEnv) (evs : List PageEvent) : CartInv (run env evs).cart := by
  refine cartInv_foldl env evs (initState env) ?_
  constructor
  · intro e he
    simp [initState] at he
  · simp [initState]

theorem productGridClick_fst_of_rerender_false (card : ProductCard) (control : GridControl)
    (cart : List CartItem) (bs : ButtonState)
    (h : (productGridClick card control cart bs).2.2 = false) :
    (productGridClick card control cart bs).1 = cart := by
  cases hid : idOf card with
  | none => simp [productGridClick, hid]
  | some cardId =>
    cases control with
    | increment =>
      cases hfind : cart.find? (fun item => item.id == cardId) with
      | none => simp [productGridClick, hid, hfind]
      | some item => simp [productGridClick, hid, hfind] at h
    | decrement =>
      cases hfind : cart.find? (fun item => item.id == cardId) with
      | none => simp [productGridClick, hid, hfind]
      | some item =>
        by_cases hq : item.quantity - 1 = 0 <;> simp [productGridClick, hid, hfind, hq] at h
    | add =>
      cases hfind : cart.find? (fun item => item.id == cardId) with
      | some item => simp [productGridClick, hid, hfind]
      | none => simp [productGridClick, hid, hfind, addToCart] at h

/-- Claim C1: in every cart state reachable by any sequence of the
controller's click events (add, increment, decrement, remove, confirm,
start-new-order) from the empty cart, every entry has quantity at least 1
and the entries' ids are pairwise distinct; in particular no operation
ever leaves an entry with quantity 0 in the cart. -/
theorem c1_reachable_cart_invariant (env : PageEnv) (evs : List PageEvent) :
    (∀ e ∈ (run env evs).cart, 1 ≤ e.quantity) ∧
      ((run env evs).cart.map (fun e => e.id)).Nodup :=
  cartInv_run env evs

/-- Claim C2: for every cart state and product id (a product id is the
nonempty trimmed name text of a card), clicking the plain add control
when no entry with that id exists appends exactly one new entry with that
id and quantity 1, and clicking the plain add control again while an
entry with that id exists leaves the cart entirely unchanged. -/
theorem c2_plain_add (cart : List CartItem) (bs : ButtonState) (card : ProductCard)
    (id : String) (hid : idOf card = some id) :
    (cart.find? (fun item => item.id == id) = none →
      (productGridClick card GridControl.add cart bs).1
        = cart ++ [{ id := id, name := id,
                     price := parsePrice (card.cardPriceText.getD ""), quantity := 1,
                     image := imageOf card }]) ∧
    (∀ item, cart.find? (fun item => item.id == id) = some item →
      (productGridClick card GridControl.add cart bs).1 = cart) := by
  constructor
  · intro hfind
    simp [productGridClick, hid, hfind, addToCart]
  · intro item hfind
    simp [productGridClick, hid, hfind]

theorem c2_plain_add_witness :
    idOf ⟨some " Waffle ", some "$6.50", none⟩ = some "Waffle" ∧
    (productGridClick ⟨some " Waffle ", some "$6.50", none⟩ GridControl.add []
        ButtonState.addButton).1
      = [{ id := "Waffle", name := "Waffle", price := 13 / 2, quantity := 1, image := none }] ∧
    (productGridClick ⟨some " Waffle ", some "$6.50", none⟩ GridControl.add
        [{ id := "Waffle", name := "Waffle", price := 13 / 2, quantity := 1, image := none }]
        ButtonState.addButton).1
      = [{ id := "Waffle", name := "Waffle", price := 13 / 2, quantity := 1, image := none }] := by
  refine ⟨by decide, ?_, ?_⟩
  · rw [(c2_plain_add [] ButtonState.addButton ⟨some " Waffle ", some "$6.50", none⟩ "Waffle"
      (by decide)).1 (by decide)]
    decide
  · exact (c2_plain_add
      [{ id := "Waffle", name := "Waffle", price := 13 / 2, quantity := 1, image := none }]
      ButtonState.addButton ⟨some " Waffle ", some "$6.50", none⟩ "Waffle" (by decide)).2
      { id := "Waffle", name := "Waffle", price := 13 / 2, quantity := 1, image := none }
      (by decide)

/-- Claim C3: for every keyed cart state (pairwise-distinct ids, the
spec's Cart data model) and every card whose id is present: a
decrement-control click sets the entry's quantity from N to N-1 when
N is above 1; when N is 1 it removes the entry from the cart entirely and
resets the card's button to the initial add state; and when no entry with
the card's id exists the click leaves the cart unchanged. -/
theorem c3_decrement (cart : List CartItem) (bs : ButtonState) (card : ProductCard)
    (id : String) (hid : idOf card = some id)
    (hnd : (cart.map (fun e => e.id)).Nodup) :
    (∀ item, cart.find? (fun it => it.id == id) = some item → 1 < item.quantity →
      (productGridClick card GridControl.decrement cart bs).1
        = cart.map (fun e => if e.id == id then { e with quantity := e.quantity - 1 } else e)) ∧
    (∀ item, cart.find? (fun it => it.id == id) = some item → item.quantity = 1 →
      (productGridClick card GridControl.decrement cart bs).1
          = cart.filter (fun e => !(e.id == id)) ∧
        (productGridClick card GridControl.decrement cart bs).2.1 = ButtonState.addButton) ∧
    (cart.find? (fun it => it.id == id) = none →
      (productGridClick card GridControl.decrement cart bs).1 = cart) := by
  refine ⟨?_, ?_, ?_⟩
  · intro item hfind hq
    have hq0 : ¬ (item.quantity - 1 = 0) := by omega
    have hres : (productGridClick card GridControl.decrement cart bs).1
        = bumpFirst (fun it => { it with quantity := it.quantity - 1 })
            (fun it => it.id == id) cart := by
      simp [productGridClick, hid, hfind, hq0]
    rw [hres, bumpFirst_eq_map (fun it => { it with quantity := it.quantity - 1 }) id cart hnd]
  · intro item hfind hq
    have hq0 : item.quantity - 1 = 0 := by omega
    constructor
    · have hres : (productGridClick card GridControl.decrement cart bs).1
          = (bumpFirst (fun it => { it with quantity := it.quantity - 1 })
              (fun it => it.id == id) cart).filter (fun it => !(it.id == id)) := by
        simp [productGridClick, hid, hfind, hq0]
      rw [hres, filter_bumpFirst (fun it => { it with quantity := it.quantity - 1 })
        (fun it => it.id == id) (fun e => rfl)]
    · simp [productGridClick, hid, hfind, hq0]
  · intro hfind
    simp [productGridClick, hid, hfind]

theorem c3_decrement_witness :
    idOf ⟨some "Waffle", some "$6.50", none⟩ = some "Waffle" ∧
    (([{ id := "Waffle", name := "Waffle", price := 13 / 2, quantity := 2, image := none }] :
        List CartItem).map (fun e => e.id)).Nodup ∧
    (productGridClick ⟨some "Waffle", some "$6.50", none⟩ GridControl.decrement
        [{ id := "Waffle", name := "Waffle", price := 13 / 2, quantity := 2, image := none }]
        (ButtonState.quantitySelector 2)).1
      = List.map (fun e => if e.id == "Waffle" then { e with quantity := e.quantity - 1 } else e)
          [{ id := "Waffle", name := "Waffle", price := 13 / 2, quantity := 2, image := none }] := by
  refine ⟨by decide, by decide, ?_⟩
  exact (c3_decrement
    [{ id := "Waffle", name := "Waffle", price := 13 / 2, quantity := 2, image := none }]
    (ButtonState.quantitySelector 2) ⟨some "Waffle", some "$6.50", none⟩ "Waffle"
    (by decide) (by decide)).1
    { id := "Waffle", name := "Waffle", price := 13 / 2, quantity := 2, image := none }
    (by decide) (by decide)

/-- Claim C5: for every cart state and every product id (product ids are
nonempty, being trimmed name text that passed the falsy guard), a click
on a remove-item control carrying that id yields the filter of the cart
by that id: every entry with that id is deleted regardless of its
quantity, every other entry is kept unchanged in the same relative order
(the result is a sublist of the cart containing all other entries), and
the click is a safe no-op on the cart when no entry with that id
exists. -/
theorem c5_remove_frame (cart : List CartItem) (p : String) (hp : p ≠ "") :
    ((cartRemoveClick (some p) cart).1 = cart.filter (fun e => !(e.id == p))) ∧
    (∀ e ∈ (cartRemoveClick (some p) cart).1, e.id ≠ p) ∧
    List.Sublist (cartRemoveClick (some p) cart).1 cart ∧
    (∀ e ∈ cart, e.id ≠ p → e ∈ (cartRemoveClick (some p) cart).1) ∧
    ((∀ e ∈ cart, e.id ≠ p) → (cartRemoveClick (some p) cart).1 = cart) := by
  have hres : (cartRemoveClick (some p) cart).1 = cart.filter (fun e => !(e.id == p)) := by
    simp [cartRemoveClick, hp]
  refine ⟨hres, ?_, ?_, ?_, ?_⟩
  · intro e he
    rw [hres] at he
    have := List.of_mem_filter he
    simpa using this
  · rw [hres]
    exact List.filter_sublist cart
  · intro e he hne
    rw [hres]
    exact List.mem_filter.mpr ⟨he, by simpa using hne⟩
  · intro hall
    rw [hres]
    apply List.filter_eq_self.mpr
    intro e he
    simpa using hall e he

theorem c5_remove_frame_witness :
    ("Waffle" : String) ≠ "" ∧
    (cartRemoveClick (some "Waffle")
        [{ id := "Waffle", name := "Waffle", price := 13 / 2, quantity := 3, image := none },
         { id := "Cake", name := "Cake", price := 4, quantity := 1, image := none }]).1
      = [{ id := "Cake", name := "Cake", price := 4, quantity := 1, image := none }] := by
  refine ⟨by decide, ?_⟩
  rw [(c5_remove_frame
    [{ id := "Waffle", name := "Waffle", price := 13 / 2, quantity := 3, image := none },
     { id := "Cake", name := "Cake", price := 4, quantity := 1, image := none }]
    "Waffle" (by decide)).1]
  decide

/-- Claim C6: for every page environment and every prior page state (any
cart contents, any modal visibility, any button modes), a
start-new-order click hides the confirmation modal, sets the cart to the
empty list, restores every product card's button to the initial add
display, and re-renders the cart panel in its empty state. -/
theorem c6_reset_order (env : PageEnv) (s : PageState) :
    (step env PageEvent.startNewOrder s).modalVisible = false ∧
    (step env PageEvent.startNewOrder s).cart = [] ∧
    (∀ b ∈ (step env PageEvent.startNewOrder s).buttons, b = ButtonState.addButton) ∧
    (step env PageEvent.startNewOrder s).panel = CartView.emptyState := by
  refine ⟨rfl, rfl, ?_, rfl⟩
  intro b hb
  have hmem : b ∈ s.buttons.map (fun _ => ButtonState.addButton) := by
    simpa [step, resetOrder] using hb
  rcases List.mem_map.mp hmem with ⟨a, ha, hba⟩
  exact hba.symm

/-- Claim C10: for every page environment and every page state, a
confirm-order click (rendering and showing the confirmation modal)
leaves the cart itself unchanged, entry for entry, including when the
modal's summary or total element is missing and the operation aborts
early. -/
theorem c10_confirm_frame (env : PageEnv) (s : PageState) :
    (step env PageEvent.confirmClick s).cart = s.cart :=
  showConfirmationModal_cart env s

/-- Claim C4: for every cart state, the cart panel's heading count equals
the sum of all entries' quantities (0 in the empty state), the rendered
grand total equals the sum over all entries of price times quantity,
displayed as that sum rounded to 2 decimal places; and on every event
that mutates the cart the panel is recomputed from the full new cart. -/
theorem c4_panel_totals (cart : List CartItem) (env : PageEnv) (ev : PageEvent) (s : PageState) :
    ((renderCartView cart).count = (cart.map (fun e => e.quantity)).sum) ∧
    (cart ≠ [] →
      (renderCartView cart).totalOf
          = some ((cart.map (fun e => e.price * (e.quantity : ℚ))).sum) ∧
        (renderCartView cart).totalTextOf
          = some ("$" ++ toFixed2 ((cart.map (fun e => e.price * (e.quantity : ℚ))).sum))) ∧
    ((step env ev s).cart ≠ s.cart → (step env ev s).panel = renderCartView (step env ev s).cart) := by
  refine ⟨?_, ?_, ?_⟩
  · cases hc : cart.isEmpty with
    | true =>
      have hnil : cart = [] := by simpa using hc
      subst hnil
      rfl
    | false =>
      simp [renderCartView, hc, updateCartFold_spec, CartView.count]
  · intro hne
    have hc : cart.isEmpty = false := by simpa using hne
    constructor
    · simp [renderCartView, hc, updateCartFold_spec, CartView.totalOf]
    · simp [renderCartView, hc, updateCartFold_spec, CartView.totalTextOf]
  · intro hmut
    cases ev with
    | gridClick i control =>
      cases hcard : env.cards[i]? with
      | none =>
        exact absurd (show (step env (PageEvent.gridClick i control) s).cart = s.cart by
          simp [step, hcard]) hmut
      | some card =>
        cases hr : (productGridClick card control s.cart (s.buttons[i]?.getD ButtonState.addButton)).2.2 with
        | true => simp [step, hcard, hr]
        | false =>
          have hsame := productGridClick_fst_of_rerender_false card control s.cart
            (s.buttons[i]?.getD ButtonState.addButton) hr
          exact absurd (show (step env (PageEvent.gridClick i control) s).cart = s.cart by
            simp [step, hcard, hsame]) hmut
    | removeClick pid =>
      cases pid with
      | none =>
        exact absurd (show (step env (PageEvent.removeClick none) s).cart = s.cart by
          simp [step, cartRemoveClick]) hmut
      | some p =>
        by_cases hp : p = ""
        · exact absurd (show (step env (PageEvent.removeClick (some p)) s).cart = s.cart by
            simp [step, cartRemoveClick, hp]) hmut
        · simp [step, cartRemoveClick, hp]
    | confirmClick => exact absurd (showConfirmationModal_cart env s) hmut
    | startNewOrder => rfl

theorem c4_panel_totals_witness :
    (([{ id := "Waffle", name := "Waffle", price := 13 / 2, quantity := 2, image := none }] :
        List CartItem) ≠ []) ∧
    (renderCartView [{ id := "Waffle", name := "Waffle", price := 13 / 2, quantity := 2, image := none }]).totalTextOf
      = some ("$" ++ toFixed2
          (([{ id := "Waffle", name := "Waffle", price := 13 / 2, quantity := 2, image := none }] :
              List CartItem).map (fun e => e.price * (e.quantity : ℚ))).sum) ∧
    (step ⟨[⟨some "Waffle", some "$6.50", none⟩], true, true⟩ (PageEvent.gridClick 0 GridControl.add)
        (initState ⟨[⟨some "Waffle", some "$6.50", none⟩], true, true⟩)).cart
      ≠ (initState ⟨[⟨some "Waffle", some "$6.50", none⟩], true, true⟩).cart ∧
    (step ⟨[⟨some "Waffle", some "$6.50", none⟩], true, true⟩ (PageEvent.gridClick 0 GridControl.add)
        (initState ⟨[⟨some "Waffle", some "$6.50", none⟩], true, true⟩)).panel
      = renderCartView (step ⟨[⟨some "Waffle", some "$6.50", none⟩], true, true⟩
          (PageEvent.gridClick 0 GridControl.add)
          (initState ⟨[⟨some "Waffle", some "$6.50", none⟩], true, true⟩)).cart := by
  refine ⟨by decide, ?_, by decide, ?_⟩
  · exact ((c4_panel_totals
      [{ id := "Waffle", name := "Waffle", price := 13 / 2, quantity := 2, image := none }]
      ⟨[⟨some "Waffle", some "$6.50", none⟩], true, true⟩ (PageEvent.gridClick 0 GridControl.add)
      (initState ⟨[⟨some "Waffle", some "$6.50", none⟩], true, true⟩)).2.1 (by decide)).2
  · exact (c4_panel_totals
      [{ id := "Waffle", name := "Waffle", price := 13 / 2, quantity := 2, image := none }]
      ⟨[⟨some "Waffle", some "$6.50", none⟩], true, true⟩ (PageEvent.gridClick 0 GridControl.add)
      (initState ⟨[⟨some "Waffle", some "$6.50", none⟩], true, true⟩)).2.2 (by decide)

/-- Claim C8: for every nonempty cart state (the confirm-order control
only exists when the panel shows items), the grand total computed and
displayed by the confirmation modal equals the grand total computed and
displayed by the cart panel for that same state, and the modal renders
one row per entry in the same insertion order as the cart panel. -/
theorem c8_modal_matches_panel (cart : List CartItem) (hne : cart ≠ []) :
    (renderModalView cart).totalPrice = (cart.map (fun e => e.price * (e.quantity : ℚ))).sum ∧
    (renderCartView cart).totalOf = some ((renderModalView cart).totalPrice) ∧
    (renderCartView cart).totalTextOf = some ((renderModalView cart).totalText) ∧
    (renderModalView cart).rows.length = cart.length ∧
    (renderModalView cart).rows.map (fun r => r.name) = cart.map (fun e => e.name) ∧
    (renderCartView cart).rowsOf.map (fun r => r.name) = cart.map (fun e => e.name) := by
  have hc : cart.isEmpty = false := by simpa using hne
  have hm := showModalFold_spec cart
  have hu := updateCartFold_spec cart
  refine ⟨?_, ?_, ?_, ?_, ?_, ?_⟩
  · simp [renderModalView, hm]
  · simp [renderCartView, hc, hu, renderModalView, hm, CartView.totalOf]
  · simp [renderCartView, hc, hu, renderModalView, hm, CartView.totalTextOf]
  · simp [renderModalView, hm]
  · simp only [renderModalView, hm]
    rw [List.map_map]
    rfl
  · simp only [renderCartView, hc, Bool.false_eq_true, if_false, hu, CartView.rowsOf]
    rw [List.map_map]
    rfl

theorem c8_modal_matches_panel_witness :
    (([{ id := "Waffle", name := "Waffle", price := 13 / 2, quantity := 1, image := none },
       { id := "Cake", name := "Cake", price := 4, quantity := 2, image := none }] :
        List CartItem) ≠ []) ∧
    (renderCartView
        [{ id := "Waffle", name := "Waffle", price := 13 / 2, quantity := 1, image := none },
         { id := "Cake", name := "Cake", price := 4, quantity := 2, image := none }]).totalTextOf
      = some ((renderModalView
          [{ id := "Waffle", name := "Waffle", price := 13 / 2, quantity := 1, image := none },
           { id := "Cake", name := "Cake", price := 4, quantity := 2, image := none }]).totalText) :=
  ⟨by decide, (c8_modal_matches_panel
    [{ id := "Waffle", name := "Waffle", price := 13 / 2, quantity := 1, image := none },
     { id := "Cake", name := "Cake", price := 4, quantity := 2, image := none }]
    (by decide)).2.2.1⟩

/-- Claim C7 counterexample: the source removes the first `'$'` anywhere
in the price text (`replace('$', '')`), not only a leading currency
symbol.  On the price text `"6$50"` the code stores 650, while the
spec-described computation (strip a leading symbol, then parse) gives 6. -/
theorem c7_counterexample :
    parsePrice "6$50" = 650 ∧ specParsePrice "6$50" = 6 ∧
      parsePrice "6$50" ≠ specParsePrice "6$50" :=
  ⟨by decide, by decide, by decide⟩

/-- Claim C7 (amended): for every price text, the stored price is
obtained by removing the first occurrence of the `'$'` character anywhere
in the text (not only a leading one) and parsing the remainder as a
floating-point number; when the remainder does not parse to a number the
stored price is 0; the add interaction is total and never fails on
account of the price text. -/
theorem c7_price_policy (s : String) :
    (hasSub ['$'] s.data = false → parsePrice s = (jsParseFloat s).getD 0) ∧
    (hasSub ['$'] s.data = true →
      ∃ u v : List Char, s.data = u ++ '$' :: v ∧ hasSub ['$'] u = false ∧
        parsePrice s = (jsParseFloat ⟨u ++ v⟩).getD 0) ∧
    (jsParseFloat (replaceFirst s "$") = none → parsePrice s = 0) := by
  have hpd : ("$" : String).data = ['$'] := rfl
  refine ⟨?_, ?_, ?_⟩
  · intro h
    have hrepl := replaceFirst_no_occ s "$" (by rw [hpd]; exact h)
    cases h2 : jsParseFloat s with
    | none => simp [parsePrice, hrepl, h2]
    | some v => simp [parsePrice, hrepl, h2]
  · intro h
    obtain ⟨u, v, heq, hfirst, hrepl⟩ :=
      replaceFirst_occ s "$" (by rw [hpd]; simp) (by rw [hpd]; exact h)
    refine ⟨u, v, ?_, ?_, ?_⟩
    · rw [heq, hpd]
      simp
    · rw [hpd] at hfirst
      simpa using hfirst
    · cases h2 : jsParseFloat (⟨u ++ v⟩ : String) with
      | none => simp [parsePrice, hrepl, h2]
      | some v2 => simp [parsePrice, hrepl, h2]
  · intro h
    simp [parsePrice, h]

theorem c7_price_policy_witness :
    hasSub ['$'] ("$6.50" : String).data = true ∧
    (∃ u v : List Char, ("$6.50" : String).data = u ++ '$' :: v ∧ hasSub ['$'] u = false ∧
      parsePrice "$6.50" = (jsParseFloat ⟨u ++ v⟩).getD 0) :=
  ⟨by decide, (c7_price_policy "$6.50").2.1 (by decide)⟩

/-- Claim C9 counterexample: the source removes the first occurrence of
`"-desktop"` anywhere in the image URL (`replace('-desktop', '')`), not
only a suffix.  On the URL `"image-waffle-desktop.jpg"` (where
`-desktop` is followed by the file extension and so is not a suffix of
the URL) the code stores `"image-waffle.jpg"`, while the spec-described
computation (remove a `-desktop` suffix if present, otherwise keep the
URL unchanged) keeps `"image-waffle-desktop.jpg"`. -/
theorem c9_counterexample :
    imageOf ⟨some "Waffle", some "$6.50", some "image-waffle-desktop.jpg"⟩
        = some "image-waffle.jpg" ∧
    specImageOf ⟨some "Waffle", some "$6.50", some "image-waffle-desktop.jpg"⟩
        = some "image-waffle-desktop.jpg" ∧
    imageOf ⟨some "Waffle", some "$6.50", some "image-waffle-desktop.jpg"⟩
      ≠ specImageOf ⟨some "Waffle", some "$6.50", some "image-waffle-desktop.jpg"⟩ :=
  ⟨by decide, by decide, by decide⟩

/-- Claim C9 (amended): the image URL stored in a newly created cart
entry is the card's image URL with the first occurrence of the substring
`-desktop` (anywhere in the URL, not only as a suffix) removed when one
occurs, and the URL unchanged otherwise; when the card has no image
element or an empty image URL, the stored image is absent. -/
theorem c9_image_policy (n p : Option String) (s : String) :
    imageOf ⟨n, p, none⟩ = none ∧
    imageOf ⟨n, p, some ""⟩ = none ∧
    (s ≠ "" → hasSub ("-desktop" : String).data s.data = false →
      imageOf ⟨n, p, some s⟩ = some s) ∧
    (s ≠ "" → hasSub ("-desktop" : String).data s.data = true →
      ∃ u v : List Char, s.data = u ++ (("-desktop" : String).data ++ v) ∧
        hasSub ("-desktop" : String).data (u ++ ("-desktop" : String).data.dropLast) = false ∧
        imageOf ⟨n, p, some s⟩ = some ⟨u ++ v⟩) := by
  refine ⟨rfl, rfl, ?_, ?_⟩
  · intro hne h
    simp [imageOf, hne, replaceFirst_no_occ s "-desktop" h]
  · intro hne h
    obtain ⟨u, v, heq, hfirst, hrepl⟩ := replaceFirst_occ s "-desktop" (by decide) h
    exact ⟨u, v, heq, hfirst, by simp [imageOf, hne, hrepl]⟩

theorem c9_image_policy_witness :
    ("image-waffle-desktop.jpg" : String) ≠ "" ∧
    hasSub ("-desktop" : String).data ("image-waffle-desktop.jpg" : String).data = true ∧
    (∃ u v : List Char,
      ("image-waffle-desktop.jpg" : String).data = u ++ (("-desktop" : String).data ++ v) ∧
      hasSub ("-desktop" : String).data (u ++ ("-desktop" : String).data.dropLast) = false ∧
      imageOf ⟨some "Waffle", some "$6.50", some "image-waffle-desktop.jpg"⟩ = some ⟨u ++ v⟩) :=
  ⟨by decide, by decide,
    (c9_image_policy (some "Waffle") (some "$6.50") "image-waffle-desktop.jpg").2.2.2
      (by decide) (by decide)⟩
